import Mathlib

/-!
A shallow embedding of a small ETL pipeline for scraped fashion-product
data: the per-field normalisation functions, whole-table cleaning,
product-card descriptor classification, page chunking for the concurrent
harvester, and the top-level pipeline driver.

Modelling conventions.  Python strings are Lean `String`/`List Char`;
Python floats are `ℚ` (the pipeline performs only exact decimal
arithmetic); pandas cells are the `Value` type below, with `Value.null`
standing for both `None` and float `NaN`.  Fallible Python operations are
modelled in an `Except` monad over `PyErr`, so that `try/except` clauses
translate faithfully and "never raises past its boundary" becomes a
provable statement.  `float(...)` is modelled on finite decimal literals
(optional sign, digits, fraction, exponent); `pd.to_datetime` is modelled
on ISO-like `YYYY-MM-DD[ T]HH:MM:SS[.ffffff]` strings, which is the only
shape of timestamp the pipeline produces (`datetime.now().isoformat()`),
and on numeric epoch-nanosecond inputs.
-/

namespace ETL

/-- A pandas cell: `null` models `None`/`NaN`, `str` a Python `str`,
`num` a Python `float` (as an exact rational), `intv` a Python `int`. -/
inductive Value where
  | null : Value
  | str : String → Value
  | num : ℚ → Value
  | intv : ℤ → Value
deriving DecidableEq, Repr

/-- Python exception kinds raised by the operations the transforms use. -/
inductive PyErr where
  | valueError : PyErr
  | attributeError : PyErr
  | indexError : PyErr
deriving DecidableEq, Repr

/-! ### Python string primitives, on `List Char` / `String` -/

/-- ASCII whitespace, as recognised by Python's `str.strip()` /
`float()` (the pipeline never feeds unicode whitespace). -/
def isWs (c : Char) : Bool :=
  c = ' ' || c = '\t' || c = '\n' || c = '\r' || c = '\x0b' || c = '\x0c'

/-- Drop leading and trailing whitespace: Python `str.strip()`. -/
def pyTrim (l : List Char) : List Char :=
  ((l.dropWhile isWs).reverse.dropWhile isWs).reverse

/-- `str.strip()` on `String`. -/
def trimS (s : String) : String := ⟨pyTrim s.data⟩

/-- Python `s.replace(c, '')` for a single-character pattern `c`:
every occurrence is removed. -/
def removeChar (c : Char) (l : List Char) : List Char :=
  l.filter (fun d => d != c)

/-- `s.replace(c, '')` on `String`. -/
def removeCharS (c : Char) (s : String) : String := ⟨removeChar c s.data⟩

/-- One fuel-indexed step of Python `s.replace(pat, '')` for a multi-character
pattern: scan left to right, removing each non-overlapping occurrence. -/
def removeSubFuel (pat : List Char) : ℕ → List Char → List Char
  | 0, l => l
  | _ + 1, [] => []
  | f + 1, c :: rest =>
    if pat ≠ [] ∧ pat.isPrefixOf (c :: rest) then
      removeSubFuel pat f ((c :: rest).drop pat.length)
    else
      c :: removeSubFuel pat f rest

/-- Python `s.replace(pat, '')` for a non-empty pattern. -/
def removeSub (pat : List Char) (l : List Char) : List Char :=
  removeSubFuel pat l.length l

/-- `s.replace(pat, '')` on `String`. -/
def removeSubS (pat : String) (s : String) : String := ⟨removeSub pat.data s.data⟩

/-- Does `pat` occur as a contiguous substring?  Python `pat in s`. -/
def containsSub (pat : List Char) : List Char → Bool
  | [] => pat.isEmpty
  | c :: rest => pat.isPrefixOf (c :: rest) || containsSub pat rest

/-- Python `pat in s` on `String`. -/
def containsS (s pat : String) : Bool := containsSub pat.data s.data

/-- Split a list at every element satisfying `p`; separators are consumed and
empty pieces are kept (the result is always non-empty). -/
def splitOnP (p : Char → Bool) : List Char → List (List Char)
  | [] => [[]]
  | c :: rest =>
    let r := splitOnP p rest
    if p c then [] :: r else (c :: r.headD []) :: r.tail

/-- Python `s.split(sep)` for a single-character separator. -/
def splitChar (sep : Char) (l : List Char) : List (List Char) :=
  splitOnP (fun c => c == sep) l

/-- Python `s.split()` with no argument: split on whitespace runs,
discarding empty pieces. -/
def splitWs (l : List Char) : List (List Char) :=
  (splitOnP isWs l).filter (fun g => g ≠ [])

/-- The piece of `s` before the first `/` (all of `s` when there is none):
Python `s.split('/')[0]`, which is total because `split` never returns
an empty list. -/
def beforeSlash (s : String) : String := ⟨(splitChar '/' s.data).headD []⟩

/-! ### Python numeric literal parsing -/

/-- Are all characters ASCII digits? -/
def allDigits (l : List Char) : Bool := l.all (fun c => c.isDigit)

/-- The natural number denoted by a list of ASCII digits. -/
def digitsVal (l : List Char) : ℕ :=
  l.foldl (fun a c => 10 * a + (c.toNat - 48)) 0

/-- Python `str.isdigit()` restricted to ASCII: non-empty and all digits. -/
def isdigitS (s : String) : Bool := s.data ≠ [] && allDigits s.data

/-- Strip one optional leading sign, returning the sign as a rational. -/
def stripSign (l : List Char) : ℚ × List Char :=
  match l with
  | [] => (1, [])
  | c :: r => if c = '+' then (1, r) else if c = '-' then (-1, r) else (1, c :: r)

/-- Parse an unsigned decimal mantissa: `digits`, `digits.digits`,
`digits.` or `.digits` (at least one digit overall). -/
def parseMantissa (l : List Char) : Option ℚ :=
  match splitChar '.' l with
  | [ip] =>
    if allDigits ip ∧ ip ≠ [] then some ((digitsVal ip : ℚ)) else none
  | [ip, fp] =>
    if allDigits ip ∧ allDigits fp ∧ (ip ≠ [] ∨ fp ≠ []) then
      some ((digitsVal ip : ℚ) + (digitsVal fp : ℚ) / 10 ^ fp.length)
    else none
  | _ => none

/-- Parse a (signed) decimal exponent. -/
def parseExp (l : List Char) : Option ℤ :=
  let (sgn, rest) := stripSign l
  if allDigits rest ∧ rest ≠ [] then
    some ((if sgn = 1 then 1 else -1) * (digitsVal rest : ℤ))
  else none

/-- Parse a finite Python float literal from a whitespace-trimmed
character list. -/
def pyFloatCore (cs : List Char) : Option ℚ :=
  match splitOnP (fun c => c == 'e' || c == 'E') (stripSign cs).2 with
  | [m] => (parseMantissa m).map (fun q => (stripSign cs).1 * q)
  | [m, e] =>
    match parseMantissa m, parseExp e with
    | some qm, some z => some ((stripSign cs).1 * qm * (10 : ℚ) ^ z)
    | _, _ => none
  | _ => none

/-- Python `float(s)` on finite decimal literals (`None` models the
`ValueError` raise).  Surrounding whitespace is tolerated, as in Python. -/
def pyFloat (s : String) : Option ℚ := pyFloatCore (pyTrim s.data)

/-- Python `str(v)` as far as the pipeline observes it: the result is only
ever tested for the substrings `Invalid` / `Not Rated`, so the exact float
rendering is irrelevant; any digit-based rendering is faithful. -/
def pyStrOf : Value → String
  | .null => "None"
  | .str s => s
  | .num q => toString q
  | .intv n => toString n

/-! ### Datetime model -/

/-- A wall-clock datetime: year (possibly negative), month, day, hour,
minute, second. -/
structure DT where
  year : ℤ
  month : ℕ
  day : ℕ
  hour : ℕ
  minute : ℕ
  second : ℕ
deriving DecidableEq, Repr

/-- Gregorian leap year. -/
def isLeap (y : ℕ) : Bool := (y % 4 = 0 && y % 100 ≠ 0) || y % 400 = 0

/-- Days in a month of the proleptic Gregorian calendar. -/
def daysInMonth (y m : ℕ) : ℕ :=
  if m = 1 ∨ m = 3 ∨ m = 5 ∨ m = 7 ∨ m = 8 ∨ m = 10 ∨ m = 12 then 31
  else if m = 4 ∨ m = 6 ∨ m = 9 ∨ m = 11 then 30
  else if isLeap y then 29 else 28

/-- Read exactly `n` ASCII digits, returning their value and the rest. -/
def readDigits (n : ℕ) (l : List Char) : Option (ℕ × List Char) :=
  let ds := l.take n
  if ds.length = n ∧ allDigits ds then some (digitsVal ds, l.drop n) else none

/-- Expect one specific character. -/
def expectChar (c : Char) : List Char → Option (List Char)
  | [] => none
  | d :: rest => if d = c then some rest else none

/-- Parse the optional time-of-day tail `HH:MM:SS[.ffffff]`. -/
def parseTimePart (l : List Char) : Option (ℕ × ℕ × ℕ) := do
  let (h, r1) ← readDigits 2 l
  let r2 ← expectChar ':' r1
  let (mi, r3) ← readDigits 2 r2
  let r4 ← expectChar ':' r3
  let (sec, r5) ← readDigits 2 r4
  let fracOk :=
    match r5 with
    | [] => true
    | '.' :: fs => fs ≠ [] && allDigits fs
    | _ => false
  if h < 24 ∧ mi < 60 ∧ sec < 60 ∧ fracOk = true then some (h, mi, sec) else none

/-- `pd.to_datetime` on the ISO-like strings the pipeline produces:
`YYYY-MM-DD`, optionally followed by `T` or a space and
`HH:MM:SS[.ffffff]`.  `none` models the parse `ValueError`. -/
def parseDT (s : String) : Option DT := do
  let (y, r1) ← readDigits 4 s.data
  let r2 ← expectChar '-' r1
  let (mo, r3) ← readDigits 2 r2
  let r4 ← expectChar '-' r3
  let (d, r5) ← readDigits 2 r4
  if 1 ≤ mo ∧ mo ≤ 12 ∧ 1 ≤ d ∧ d ≤ daysInMonth y mo then
    match r5 with
    | [] => some ⟨(y : ℤ), mo, d, 0, 0, 0⟩
    | c :: r6 =>
      if c = 'T' ∨ c = ' ' then
        (parseTimePart r6).map (fun t => ⟨(y : ℤ), mo, d, t.1, t.2.1, t.2.2⟩)
      else none
  else none

/-- Civil date from a count of days since 1970-01-01 (standard
era-decomposition algorithm). -/
def civilFromDays (z0 : ℤ) : ℤ × ℕ × ℕ :=
  let z := z0 + 719468
  let era := z.fdiv 146097
  let doe := (z - era * 146097).toNat
  let yoe := (doe - doe / 1460 + doe / 36524 - doe / 146096) / 365
  let y := (yoe : ℤ) + era * 400
  let doy := doe - (365 * yoe + yoe / 4 - yoe / 100)
  let mp := (5 * doy + 2) / 153
  let d := doy - (153 * mp + 2) / 5 + 1
  let m := if mp < 10 then mp + 3 else mp - 9
  (if mp ≥ 10 then y + 1 else y, m, d)

/-- `pd.to_datetime` on a number: epoch nanoseconds (pandas default unit),
truncated to seconds. -/
def dtOfEpochNanos (n : ℤ) : DT :=
  let secs := n.fdiv 1000000000
  let days := secs.fdiv 86400
  let sod := (secs - 86400 * days).toNat
  let c := civilFromDays days
  ⟨c.1, c.2.1, c.2.2, sod / 3600, (sod % 3600) / 60, sod % 60⟩

/-- Left-pad the decimal rendering of `n` with zeros to width `w`. -/
def padNum (w : ℕ) (n : ℕ) : String :=
  let s := toString n
  ⟨List.replicate (w - s.length) '0'⟩ ++ s

/-- `strftime('%Y-%m-%d %H:%M:%S')`. -/
def formatDT (t : DT) : String :=
  (if t.year < 0 then "-" ++ padNum 4 (-t.year).toNat else padNum 4 t.year.toNat)
    ++ "-" ++ padNum 2 t.month ++ "-" ++ padNum 2 t.day
    ++ " " ++ padNum 2 t.hour ++ ":" ++ padNum 2 t.minute ++ ":" ++ padNum 2 t.second

/-! ### TransformConfig and the six field transforms -/

/-- `TransformConfig.EXCHANGE_RATE`. -/
def EXCHANGE_RATE : ℚ := 16000

/-- `TransformConfig.VALID_SIZES`. -/
def VALID_SIZES : List String := ["XS", "S", "M", "L", "XL", "XXL"]

/-- `TransformConfig.VALID_GENDERS`. -/
def VALID_GENDERS : List String := ["Men", "Women", "Unisex"]

/-- Translate a `try/except (errs): return None` wrapper: listed errors
are swallowed into `None`; anything else propagates. -/
def exceptCatch (errs : List PyErr) (x : Except PyErr (Option α)) :
    Except PyErr (Option α) :=
  match x with
  | .ok r => .ok r
  | .error e => if e ∈ errs then .ok none else .error e

/-- Run a computation known not to raise (see the totality theorem);
an uncaught error is mapped to `none` to keep the function total. -/
def exceptRun : Except PyErr (Option α) → Option α
  | .ok r => r
  | .error _ => none

/-- Body of `transform_price`: `pd.isna` short-circuit, then
`float(price.replace('$','').replace(',','').strip()) * EXCHANGE_RATE`.
`.replace` on a non-`str` raises `AttributeError`; a failed `float`
raises `ValueError`. -/
def transform_price_body : Value → Except PyErr (Option ℚ)
  | .null => .ok none
  | .str s =>
    match pyFloat (trimS (removeCharS ',' (removeCharS '$' s))) with
    | some q => .ok (some (q * EXCHANGE_RATE))
    | none => .error .valueError
  | _ => .error .attributeError

/-- `transform_price` with its `except (ValueError, AttributeError)`. -/
def transform_price_exc (v : Value) : Except PyErr (Option ℚ) :=
  exceptCatch [.valueError, .attributeError] (transform_price_body v)

/-- `DataTransformer.transform_price`. -/
def transform_price (v : Value) : Option ℚ := exceptRun (transform_price_exc v)

/-- Body of `transform_rating`: `None`/marker short-circuit (the marker
test goes through `str(rating)` and so never raises), then
`float(rating.split('/')[0].strip())`. -/
def transform_rating_body (v : Value) : Except PyErr (Option ℚ) :=
  match v with
  | .null => .ok none
  | _ =>
    if containsS (pyStrOf v) "Invalid" || containsS (pyStrOf v) "Not Rated" then
      .ok none
    else
      match v with
      | .str s =>
        match pyFloat (trimS (beforeSlash s)) with
        | some q => .ok (some q)
        | none => .error .valueError
      | _ => .error .attributeError

/-- `transform_rating` with its `except (ValueError, AttributeError)`. -/
def transform_rating_exc (v : Value) : Except PyErr (Option ℚ) :=
  exceptCatch [.valueError, .attributeError] (transform_rating_body v)

/-- `DataTransformer.transform_rating`. -/
def transform_rating (v : Value) : Option ℚ := exceptRun (transform_rating_exc v)

/-- Body of `transform_colors`: `colors.split()[0]` (raises `IndexError`
on an empty split), then `int(tok) if tok.isdigit() else None`. -/
def transform_colors_body (v : Value) : Except PyErr (Option ℤ) :=
  match v with
  | .null => .ok none
  | .str s =>
    match splitWs s.data with
    | [] => .error .indexError
    | w :: _ => .ok (if isdigitS ⟨w⟩ then some ((digitsVal w : ℤ)) else none)
  | _ => .error .attributeError

/-- `transform_colors` with its
`except (ValueError, AttributeError, IndexError)`. -/
def transform_colors_exc (v : Value) : Except PyErr (Option ℤ) :=
  exceptCatch [.valueError, .attributeError, .indexError] (transform_colors_body v)

/-- `DataTransformer.transform_colors`. -/
def transform_colors (v : Value) : Option ℤ := exceptRun (transform_colors_exc v)

/-- Body of `transform_size`: `size.replace('Size:','').strip()`, then the
`VALID_SIZES` membership test. -/
def transform_size_body (v : Value) : Except PyErr (Option String) :=
  match v with
  | .null => .ok none
  | .str s =>
    let c := trimS (removeSubS ("Size:") s)
    .ok (if c ∈ VALID_SIZES then some c else none)
  | _ => .error .attributeError

/-- `transform_size` with its `except AttributeError`. -/
def transform_size_exc (v : Value) : Except PyErr (Option String) :=
  exceptCatch [.attributeError] (transform_size_body v)

/-- `DataTransformer.transform_size`. -/
def transform_size (v : Value) : Option String := exceptRun (transform_size_exc v)

/-- Body of `transform_gender`: `gender.replace('Gender:','').strip()`,
then the `VALID_GENDERS` membership test. -/
def transform_gender_body (v : Value) : Except PyErr (Option String) :=
  match v with
  | .null => .ok none
  | .str s =>
    let c := trimS (removeSubS ("Gender:") s)
    .ok (if c ∈ VALID_GENDERS then some c else none)
  | _ => .error .attributeError

/-- `transform_gender` with its `except AttributeError`. -/
def transform_gender_exc (v : Value) : Except PyErr (Option String) :=
  exceptCatch [.attributeError] (transform_gender_body v)

/-- `DataTransformer.transform_gender`. -/
def transform_gender (v : Value) : Option String := exceptRun (transform_gender_exc v)

/-- Body of `transform_timestamp`: `pd.to_datetime` then
`strftime('%Y-%m-%d %H:%M:%S')`.  A string that fails to parse raises
`ValueError`; numeric input is interpreted as epoch nanoseconds. -/
def transform_timestamp_body (v : Value) : Except PyErr (Option String) :=
  match v with
  | .null => .ok none
  | .str s =>
    match parseDT s with
    | some t => .ok (some (formatDT t))
    | none => .error .valueError
  | .num q => .ok (some (formatDT (dtOfEpochNanos ⌊q⌋)))
  | .intv n => .ok (some (formatDT (dtOfEpochNanos n)))

/-- `transform_timestamp` with its `except (ValueError, AttributeError)`. -/
def transform_timestamp_exc (v : Value) : Except PyErr (Option String) :=
  exceptCatch [.valueError, .attributeError] (transform_timestamp_body v)

/-- `DataTransformer.transform_timestamp`. -/
def transform_timestamp (v : Value) : Option String :=
  exceptRun (transform_timestamp_exc v)

/-! ### DataFrame model and `transform_dataframe` -/

/-- A pandas DataFrame: a column-name header and a list of rows of cells
(cell `i` of a row belongs to column `i`). -/
structure DataFrame where
  cols : List String
  rows : List (List Value)
deriving DecidableEq, Repr

instance : Inhabited DataFrame := ⟨⟨[], []⟩⟩

/-- The `required_columns` list of `transform_dataframe` (also the
insertion order of keys in the scraped records). -/
def REQUIRED_COLUMNS : List String :=
  ["Title", "Price", "Rating", "Colors", "Size", "Gender", "timestamp"]

/-- First index of a column name in a header. -/
def colIndex (c : String) : List String → Option ℕ
  | [] => none
  | d :: rest => if d = c then some 0 else (colIndex c rest).map (· + 1)

/-- The cell of row `r` in column `c` (pandas label lookup). -/
def cellAt (cols : List String) (r : List Value) (c : String) : Value :=
  match colIndex c cols with
  | none => .null
  | some i => r.getD i .null

/-- `df[c] = df[c].apply(f)`: map `f` over one column.  An absent column
would raise `KeyError` in pandas; that branch is unreachable here because
every use is guarded by the required-columns check. -/
def applyColumn (df : DataFrame) (c : String) (f : Value → Value) : DataFrame :=
  match colIndex c df.cols with
  | none => df
  | some i => ⟨df.cols, df.rows.map (fun r => r.set i (f (r.getD i .null)))⟩

/-- `df.dropna(subset=cs)`: keep the rows whose cells in all the listed
columns are non-null. -/
def dropnaSub (df : DataFrame) (cs : List String) : DataFrame :=
  ⟨df.cols, df.rows.filter (fun r => cs.all (fun c => decide (cellAt df.cols r c ≠ .null)))⟩

/-- `df[df['Title'] != 'Unknown Product']`. -/
def filterUnknown (df : DataFrame) : DataFrame :=
  ⟨df.cols, df.rows.filter (fun r => decide (cellAt df.cols r "Title" ≠ .str ("Unknown Product")))⟩

/-- `df.drop_duplicates()` worker: drop rows equal to an earlier one,
keeping the first occurrence in order. -/
def dedupSeen (seen : List (List Value)) : List (List Value) → List (List Value)
  | [] => []
  | r :: rs => if r ∈ seen then dedupSeen seen rs else r :: dedupSeen (r :: seen) rs

/-- `df.drop_duplicates()`. -/
def dedupFirst (l : List (List Value)) : List (List Value) := dedupSeen [] l

/-- A 32-bit wrap, for `astype('int32')`. -/
def wrap32 (n : ℤ) : ℤ := (n + 2 ^ 31) % 2 ^ 32 - 2 ^ 31

/-- Truncation toward zero, as in a numpy float→int cast. -/
def ratTrunc (q : ℚ) : ℤ := if 0 ≤ q then ⌊q⌋ else -⌊-q⌋

/-- One cell under `astype({...})`.  In the pipeline every cell already has
its target kind, so the conversions are: int promoted to float for
`float64`, 32-bit wrap (after truncation) for `int32`, identity for
`object`/`string`; the pandas-raising combinations (for example a `str`
cell under `int32`) never occur after the dropna step and are left
unchanged. -/
def castValue (ty : String) (v : Value) : Value :=
  if ty = "float64" then
    match v with
    | .intv n => .num (n : ℚ)
    | x => x
  else if ty = "int32" then
    match v with
    | .intv n => .intv (wrap32 n)
    | .num q => .intv (wrap32 (ratTrunc q))
    | x => x
  else v

/-- The `astype` dictionary of `transform_dataframe`, in source order. -/
def ASTYPE_MAP : List (String × String) :=
  [("Title", "object"), ("Price", "float64"), ("Rating", "float64"),
   ("Colors", "int32"), ("Size", "object"), ("Gender", "object"),
   ("timestamp", "string")]

/-- `df.astype({...})`. -/
def astypeDF (df : DataFrame) : DataFrame :=
  ASTYPE_MAP.foldl (fun d p => applyColumn d p.1 (castValue p.2)) df

/-- `df.empty`: either axis has length zero. -/
def pandasEmpty (df : DataFrame) : Bool := df.rows.isEmpty || df.cols.isEmpty

/-- Lift an optional float to a cell (`None` becomes `NaN`). -/
def optNum : Option ℚ → Value
  | none => .null
  | some q => .num q

/-- Lift an optional int to a cell. -/
def optInt : Option ℤ → Value
  | none => .null
  | some n => .intv n

/-- Lift an optional string to a cell. -/
def optStr : Option String → Value
  | none => .null
  | some s => .str s

/-- The mutating statements of the `transform_dataframe` body, in source
order: the six per-column transforms, `dropna` over the six value columns,
the `Unknown Product` filter, `drop_duplicates`, and `astype`.  Each is
applied to `df_cleaned`. -/
def PIPELINE_STMTS : List (DataFrame → DataFrame) :=
  [fun d => applyColumn d "Price" (fun v => optNum (transform_price v)),
   fun d => applyColumn d "Rating" (fun v => optNum (transform_rating v)),
   fun d => applyColumn d "Colors" (fun v => optInt (transform_colors v)),
   fun d => applyColumn d "Size" (fun v => optStr (transform_size v)),
   fun d => applyColumn d "Gender" (fun v => optStr (transform_gender v)),
   fun d => applyColumn d "timestamp" (fun v => optStr (transform_timestamp v)),
   fun d => dropnaSub d ["Title", "Price", "Rating", "Colors", "Size", "Gender"],
   fun d => filterUnknown d,
   fun d => ⟨d.cols, dedupFirst d.rows⟩,
   fun d => astypeDF d]

/-- `DataTransformer.transform_dataframe`: the empty/missing-columns guard,
then the body statements applied to the copy in source order. -/
def transform_dataframe (df : DataFrame) : DataFrame :=
  if pandasEmpty df || !(REQUIRED_COLUMNS.all (fun c => decide (c ∈ df.cols))) then
    ⟨REQUIRED_COLUMNS, []⟩
  else
    PIPELINE_STMTS.foldl (fun d f => f d) df

/-! ### Aliasing model of `transform_dataframe`

`transform_dataframe` works on `df_cleaned = df.copy()` and every
subsequent statement writes only to `df_cleaned`.  To state this as a
theorem we run the body over an explicit two-slot heap: slot 0 holds the
caller's frame `df`, slot 1 is the storage freshly allocated by
`df.copy()`; each mutating statement is a write to a heap slot. -/

/-- Overwrite heap slot `i` with `f` of its current content. -/
def writeSlot (h : List DataFrame) (i : ℕ) (f : DataFrame → DataFrame) :
    List DataFrame :=
  h.set i (f (h.getD i default))

/-- `transform_dataframe` run over the explicit heap: returns the final
heap and the returned frame. -/
def transform_dataframe_heap (df : DataFrame) : List DataFrame × DataFrame :=
  if pandasEmpty df || !(REQUIRED_COLUMNS.all (fun c => decide (c ∈ df.cols))) then
    ([df], ⟨REQUIRED_COLUMNS, []⟩)
  else
    (PIPELINE_STMTS.foldl (fun h f => writeSlot h 1 f) [df, df],
     (PIPELINE_STMTS.foldl (fun h f => writeSlot h 1 f) [df, df]).getD 1 default)

/-! ### Raw records (extract stage output) -/

/-- `RawProductRecord`: the free-text fields of one parsed card, as built
by `extract_product_details` (key insertion order Title, Price, Rating,
Colors, Size, Gender, timestamp). -/
structure RawRecord where
  Title : Option String
  Price : Option String
  Rating : Option String
  Colors : Option String
  Size : Option String
  Gender : Option String
  timestamp : Option String
deriving DecidableEq, Repr

/-- A raw text field as a cell. -/
def ov : Option String → Value
  | none => .null
  | some s => .str s

/-- One raw record as a DataFrame row. -/
def recordToRow (r : RawRecord) : List Value :=
  [ov r.Title, ov r.Price, ov r.Rating, ov r.Colors, ov r.Size, ov r.Gender,
   ov r.timestamp]

/-- `pd.DataFrame(all_products) if all_products else pd.DataFrame()`:
a non-empty record list gives the seven standard columns; an empty one
gives the empty frame with no columns at all. -/
def rawToDF : List RawRecord → DataFrame
  | [] => ⟨[], []⟩
  | rs => ⟨REQUIRED_COLUMNS, rs.map recordToRow⟩

/-! ### Card-descriptor classification (`_get_additional_info`) -/

/-- The four descriptor fields accumulated from a card's `p` tags. -/
structure AdditionalInfo where
  Rating : Option String
  Colors : Option String
  Size : Option String
  Gender : Option String
deriving DecidableEq, Repr

/-- The processing applied to a Rating paragraph before assignment:
`text.replace('⭐','').replace('Rating:','').split('/')[0].strip()`. -/
def procRating (t : String) : String :=
  trimS (beforeSlash (removeSubS ("Rating:") (removeCharS '⭐' t)))

/-- One iteration of the `for p in p_tags` loop of
`_get_additional_info`: trim the paragraph text, then the `if/elif`
substring-trigger chain. -/
def infoStep (info : AdditionalInfo) (p : String) : AdditionalInfo :=
  let text := trimS p
  if containsS text "Rating:" then { info with Rating := some (procRating text) }
  else if containsS text "Colors" then { info with Colors := some text }
  else if containsS text "Size:" then { info with Size := some text }
  else if containsS text "Gender:" then { info with Gender := some text }
  else info

/-- `ProductScraper._get_additional_info`, over the list of descriptor
paragraph texts of one card. -/
def get_additional_info (ps : List String) : AdditionalInfo :=
  ps.foldl infoStep ⟨none, none, none, none⟩

/-- The four descriptor fields, as an index for the classification
characterisation. -/
inductive Fld where
  | rating : Fld
  | colors : Fld
  | size : Fld
  | gender : Fld
deriving DecidableEq, Repr

/-- Classification of one (trimmed) paragraph by the first matching
literal substring trigger, in source order. -/
def classifyP (t : String) : Option Fld :=
  if containsS t "Rating:" then some .rating
  else if containsS t "Colors" then some .colors
  else if containsS t "Size:" then some .size
  else if containsS t "Gender:" then some .gender
  else none

/-- The text assigned for a paragraph classified to a field: the Rating
field gets the processed text, the other three the verbatim trimmed text. -/
def procOf : Fld → String → String
  | .rating, t => procRating t
  | _, t => t

/-- Project a field out of an `AdditionalInfo`. -/
def fieldGet : Fld → AdditionalInfo → Option String
  | .rating, i => i.Rating
  | .colors, i => i.Colors
  | .size, i => i.Size
  | .gender, i => i.Gender

/-- Overwrite a field of an `AdditionalInfo`. -/
def fieldSet : Fld → AdditionalInfo → String → AdditionalInfo
  | .rating, i, v => { i with Rating := some v }
  | .colors, i, v => { i with Colors := some v }
  | .size, i, v => { i with Size := some v }
  | .gender, i, v => { i with Gender := some v }

/-- The last paragraph of the list classified to field `f` (trimmed), if
any: later paragraphs overwrite earlier ones. -/
def lastMatch (f : Fld) : List String → Option String
  | [] => none
  | p :: ps =>
    match lastMatch f ps with
    | some t => some t
    | none => if classifyP (trimS p) = some f then some (trimS p) else none

/-! ### Chunking and the harvester (`ScraperConfig` / `scrape`) -/

/-- `ScraperConfig.CHUNK_SIZE`:
`NUM_PAGES // MAX_WORKERS + (NUM_PAGES % MAX_WORKERS > 0)`. -/
def CHUNK_SIZE (numPages maxWorkers : ℕ) : ℕ :=
  numPages / maxWorkers + if numPages % maxWorkers > 0 then 1 else 0

/-- The page list `list(range(1, NUM_PAGES + 1))`. -/
def pagesList (numPages : ℕ) : List ℕ := List.range' 1 numPages

/-- Fuel-indexed slicing `[pages[i:i+sz] for i in range(0, len(pages), sz)]`.
Python raises `ValueError` on a zero step; with `sz = 0` (which the
pipeline never produces for a positive page count) the fuel just runs out. -/
def chunksOfFuel (sz : ℕ) : ℕ → List ℕ → List (List ℕ)
  | 0, _ => []
  | _ + 1, [] => []
  | f + 1, l => l.take sz :: chunksOfFuel sz f (l.drop sz)

/-- The chunk list built by `ProductScraper.scrape`. -/
def chunksOf (sz : ℕ) (l : List ℕ) : List (List ℕ) := chunksOfFuel sz l.length l

/-- `scrape_chunk` over one chunk of pages, abstracted over the per-page
outcome: `fetch p = none` models a failed fetch (any exception in
`_scrape_single_page`, which contributes `[]`), `some l` a page parsed
into the records `l`. -/
def scrape_chunk (fetch : ℕ → Option (List RawRecord)) (pages : List ℕ) :
    List RawRecord :=
  (pages.map (fun p => (fetch p).getD [])).flatten

/-- The per-chunk results of `scrape`, in chunk-submission order. -/
def chunkResults (fetch : ℕ → Option (List RawRecord)) (numPages maxWorkers : ℕ) :
    List (List RawRecord) :=
  (chunksOf (CHUNK_SIZE numPages maxWorkers) (pagesList numPages)).map
    (scrape_chunk fetch)

/-- The fetch function when the network is fully down: every page fails. -/
def noFetch : ℕ → Option (List RawRecord) := fun _ => none

/-! ### Pipeline driver (`run_etl_pipeline`) -/

/-- `run_etl_pipeline`, given the scraped frame and the success values of
the three load destinations.  The second component counts how many load
operations were invoked.  Mirrors `main.py`: bail out with `False` when
the raw frame is empty, again when the transformed frame is empty, and
otherwise invoke all three loads and return their conjunction. -/
def run_etl_pipeline (df_raw : DataFrame) (loadResults : Bool × Bool × Bool) :
    Bool × ℕ :=
  if pandasEmpty df_raw then (false, 0)
  else
    let df_t := transform_dataframe df_raw
    if pandasEmpty df_t then (false, 0)
    else (loadResults.1 && loadResults.2.1 && loadResults.2.2, 3)

/-! ### Spec-side definitions, for the refinement-style claims

These are written from the specification's wording, to be compared with
the implementation definitions above. -/

/-- Spec-side rendering of "a dollar amount with optional `$` and
thousands separators": an optional dollar sign, a leading digit group,
further three-digit groups each preceded by a comma, and an optional
`.`-prefixed fraction. -/
def renderDollar (dollar : Bool) (g0 : List Char) (gs : List (List Char))
    (frac : Option (List Char)) : List Char :=
  (if dollar then ['$'] else []) ++ g0 ++ (gs.map (fun g => ',' :: g)).flatten ++
    (match frac with
     | none => []
     | some f => '.' :: f)

/-- The rational a rendered dollar amount denotes. -/
def dollarNum (g0 : List Char) (gs : List (List Char))
    (frac : Option (List Char)) : ℚ :=
  (digitsVal (g0 ++ gs.flatten) : ℚ) +
    (match frac with
     | none => 0
     | some f => (digitsVal f : ℚ) / 10 ^ f.length)

/-- Spec-side `rating` normalisation, following the specification's words:
absent text or text containing the literal marker `Invalid` or
`Not Rated` gives `null`; otherwise the substring before `/` is trimmed
and parsed as a float, with `null` on parse failure. -/
def rating_spec (text : Option String) : Option ℚ :=
  match text with
  | none => none
  | some t =>
    if containsS t "Invalid" || containsS t "Not Rated" then none
    else pyFloat (trimS (beforeSlash t))

/-- The domain actually guaranteed for each row of the cleaned table: the
six value fields are present and typed, the size and gender are in their
enums, and the title is not the `Unknown Product` sentinel.  (The claimed
bounds — non-empty title, positive price, rating at most 5, positive
colour count — are *not* checked by the code.) -/
def cleanRowCheck (r : List Value) : Bool :=
  match r with
  | [t, p, ra, co, si, ge, _ts] =>
    (match t with
     | .str s => decide (s ≠ ("Unknown Product"))
     | _ => false) &&
    (match p with
     | .num _ => true
     | _ => false) &&
    (match ra with
     | .num _ => true
     | _ => false) &&
    (match co with
     | .intv _ => true
     | _ => false) &&
    (match si with
     | .str s => decide (s ∈ VALID_SIZES)
     | _ => false) &&
    (match ge with
     | .str s => decide (s ∈ VALID_GENDERS)
     | _ => false)
  | _ => false

/-- The full domain the claim asserts for each row of the cleaned table
(`CleanProductRecord`): non-empty title, positive price, rating within
`[0, 5]`, positive colour count, enum size and gender. -/
def claimedRowCheck (r : List Value) : Bool :=
  match r with
  | [t, p, ra, co, si, ge, _ts] =>
    (match t with
     | .str s => decide (s ≠ "")
     | _ => false) &&
    (match p with
     | .num q => decide (0 < q)
     | _ => false) &&
    (match ra with
     | .num q => decide (0 ≤ q ∧ q ≤ 5)
     | _ => false) &&
    (match co with
     | .intv n => decide (0 < n)
     | _ => false) &&
    (match si with
     | .str s => decide (s ∈ VALID_SIZES)
     | _ => false) &&
    (match ge with
     | .str s => decide (s ∈ VALID_GENDERS)
     | _ => false)
  | _ => false

/-! ### Row-level views of the cleaning pipeline

On a frame with the standard seven columns, each stage of
`transform_dataframe` acts row by row; the following definitions name
those row-level actions so that theorems can relate the frame-level
pipeline to them. -/

/-- The combined effect of the six per-column `apply` calls on one row of
a standard-column frame. -/
def rowStep (r : List Value) : List Value :=
  let r1 := r.set 1 (optNum (transform_price (r.getD 1 .null)))
  let r2 := r1.set 2 (optNum (transform_rating (r1.getD 2 .null)))
  let r3 := r2.set 3 (optInt (transform_colors (r2.getD 3 .null)))
  let r4 := r3.set 4 (optStr (transform_size (r3.getD 4 .null)))
  let r5 := r4.set 5 (optStr (transform_gender (r4.getD 5 .null)))
  r5.set 6 (optStr (transform_timestamp (r5.getD 6 .null)))

/-- The effect of `astype` on one row of a standard-column frame. -/
def castRow (r : List Value) : List Value :=
  let r0 := r.set 0 (castValue "object" (r.getD 0 .null))
  let r1 := r0.set 1 (castValue "float64" (r0.getD 1 .null))
  let r2 := r1.set 2 (castValue "float64" (r1.getD 2 .null))
  let r3 := r2.set 3 (castValue "int32" (r2.getD 3 .null))
  let r4 := r3.set 4 (castValue "object" (r3.getD 4 .null))
  let r5 := r4.set 5 (castValue "object" (r4.getD 5 .null))
  r5.set 6 (castValue "string" (r5.getD 6 .null))

/-- The row predicate of the `dropna(subset=...)` step on a
standard-column frame. -/
def dropnaPred (r : List Value) : Bool :=
  ["Title", "Price", "Rating", "Colors", "Size", "Gender"].all
    (fun c => decide (cellAt REQUIRED_COLUMNS r c ≠ .null))

/-- The row predicate of the `Unknown Product` filter on a
standard-column frame. -/
def unknownPred (r : List Value) : Bool :=
  decide (cellAt REQUIRED_COLUMNS r "Title" ≠ .str ("Unknown Product"))

/-- The fully transformed row of one raw record. -/
def transRow (rec : RawRecord) : List Value :=
  [ov rec.Title, optNum (transform_price (ov rec.Price)),
   optNum (transform_rating (ov rec.Rating)),
   optInt (transform_colors (ov rec.Colors)),
   optStr (transform_size (ov rec.Size)),
   optStr (transform_gender (ov rec.Gender)),
   optStr (transform_timestamp (ov rec.timestamp))]

/-! ### Concrete frames for the counterexamples -/

/-- A fully valid raw record. -/
def goodRecord : RawRecord :=
  ⟨some ("Valid Shirt"), some ("$12.50"), some ("4.5/5"), some ("3 Colors"),
   some ("Size: M"), some ("Gender: Men"), some ("2024-01-01T00:00:00")⟩

/-- A raw record whose fields all normalise to non-null values yet violate
every claimed bound: empty title, zero price, rating above 5, zero
colours. -/
def badRecord : RawRecord :=
  ⟨some (""), some ("$0.00"), some ("7/5"), some ("0 Colors"),
   some ("Size: M"), some ("Gender: Men"), some ("2024-01-01T00:00:00")⟩

/-! ## Theorems -/

/-! ### Evaluation lemmas for the field transforms -/

theorem transform_price_on_num (q : ℚ) : transform_price (.num q) = none := rfl

theorem transform_price_str (s : String) :
    transform_price (.str s) =
      (pyFloat (trimS (removeCharS ',' (removeCharS '$' s)))).map
        (fun q => q * EXCHANGE_RATE) := by
  unfold transform_price transform_price_exc transform_price_body
  cases h : pyFloat (trimS (removeCharS ',' (removeCharS '$' s))) <;>
    simp [h, exceptCatch, exceptRun]

theorem transform_price_on_intv (n : ℤ) : transform_price (.intv n) = none := rfl

theorem transform_rating_on_num (q : ℚ) : transform_rating (.num q) = none := by
  unfold transform_rating transform_rating_exc transform_rating_body
  cases h : (containsS (pyStrOf (.num q)) "Invalid" || containsS (pyStrOf (.num q)) "Not Rated") <;>
    simp [h, exceptCatch, exceptRun]

theorem transform_size_mem {v : Value} {s : String}
    (h : transform_size v = some s) : s ∈ VALID_SIZES := by
  cases v <;>
    simp only [transform_size, transform_size_exc, transform_size_body,
      exceptCatch, exceptRun] at h
  · exact absurd h (by simp)
  · split at h
    · exact Option.some.inj h ▸ (by assumption)
    · exact absurd h (by simp)
  · exact absurd h (by simp)
  · exact absurd h (by simp)

theorem transform_gender_mem {v : Value} {s : String}
    (h : transform_gender v = some s) : s ∈ VALID_GENDERS := by
  cases v <;>
    simp only [transform_gender, transform_gender_exc, transform_gender_body,
      exceptCatch, exceptRun] at h
  · exact absurd h (by simp)
  · split at h
    · exact Option.some.inj h ▸ (by assumption)
    · exact absurd h (by simp)
  · exact absurd h (by simp)
  · exact absurd h (by simp)

/-! ### Totality of the normalisers (claim C8) -/

theorem price_exc_ok (v : Value) : ∃ r, transform_price_exc v = .ok r := by
  unfold transform_price_exc transform_price_body
  cases v
  · exact ⟨none, rfl⟩
  · rename_i s
    cases h : pyFloat (trimS (removeCharS ',' (removeCharS '$' s))) <;>
      simp [h, exceptCatch]
  · exact ⟨none, by simp [exceptCatch]⟩
  · exact ⟨none, by simp [exceptCatch]⟩

theorem rating_exc_ok (v : Value) : ∃ r, transform_rating_exc v = .ok r := by
  unfold transform_rating_exc transform_rating_body
  cases v
  · exact ⟨none, rfl⟩
  · rename_i s
    cases hm : (containsS (pyStrOf (.str s)) "Invalid" || containsS (pyStrOf (.str s)) "Not Rated")
    · cases h : pyFloat (trimS (beforeSlash s)) <;> simp [hm, h, exceptCatch]
    · exact ⟨none, by simp [hm, exceptCatch]⟩
  · rename_i q
    cases hm : (containsS (pyStrOf (Value.num q)) "Invalid" ||
        containsS (pyStrOf (Value.num q)) "Not Rated") <;>
      exact ⟨none, by simp [hm, exceptCatch]⟩
  · rename_i z
    cases hm : (containsS (pyStrOf (Value.intv z)) "Invalid" ||
        containsS (pyStrOf (Value.intv z)) "Not Rated") <;>
      exact ⟨none, by simp [hm, exceptCatch]⟩

theorem colors_exc_ok (v : Value) : ∃ r, transform_colors_exc v = .ok r := by
  unfold transform_colors_exc transform_colors_body
  cases v
  · exact ⟨none, rfl⟩
  · rename_i s
    cases h : splitWs s.data <;> simp [h, exceptCatch]
  · exact ⟨none, by simp [exceptCatch]⟩
  · exact ⟨none, by simp [exceptCatch]⟩

theorem size_exc_ok (v : Value) : ∃ r, transform_size_exc v = .ok r := by
  unfold transform_size_exc transform_size_body
  cases v
  · exact ⟨none, rfl⟩
  · exact ⟨_, rfl⟩
  · exact ⟨none, by simp [exceptCatch]⟩
  · exact ⟨none, by simp [exceptCatch]⟩

theorem gender_exc_ok (v : Value) : ∃ r, transform_gender_exc v = .ok r := by
  unfold transform_gender_exc transform_gender_body
  cases v
  · exact ⟨none, rfl⟩
  · exact ⟨_, rfl⟩
  · exact ⟨none, by simp [exceptCatch]⟩
  · exact ⟨none, by simp [exceptCatch]⟩

theorem timestamp_exc_ok (v : Value) : ∃ r, transform_timestamp_exc v = .ok r := by
  unfold transform_timestamp_exc transform_timestamp_body
  cases v
  · exact ⟨none, rfl⟩
  · rename_i s
    cases h : parseDT s <;> simp [h, exceptCatch]
  · exact ⟨_, rfl⟩
  · exact ⟨_, rfl⟩

/-- Claim C8: every `FieldNormalizer` function is total — on every input
cell the translated body terminates with a caught-or-no exception, i.e.
the `try/except` wrapper returns a value (typed or `None`) and no
exception escapes past the function boundary. -/
theorem C8_normalizers_total (v : Value) :
    (∃ r, transform_price_exc v = .ok r) ∧
    (∃ r, transform_rating_exc v = .ok r) ∧
    (∃ r, transform_colors_exc v = .ok r) ∧
    (∃ r, transform_size_exc v = .ok r) ∧
    (∃ r, transform_gender_exc v = .ok r) ∧
    (∃ r, transform_timestamp_exc v = .ok r) :=
  ⟨price_exc_ok v, rating_exc_ok v, colors_exc_ok v, size_exc_ok v,
   gender_exc_ok v, timestamp_exc_ok v⟩

/-! ### Aliasing (claim C9) -/

theorem foldl_writeSlot_pair (fs : List (DataFrame → DataFrame))
    (a b : DataFrame) :
    fs.foldl (fun h f => writeSlot h 1 f) [a, b] =
      [a, fs.foldl (fun d f => f d) b] := by
  induction fs generalizing b with
  | nil => rfl
  | cons g gs ih =>
    rw [List.foldl_cons, List.foldl_cons]
    have hstep : writeSlot [a, b] 1 g = [a, g b] := rfl
    rw [hstep, ih]

set_option maxHeartbeats 4000000 in
/-- Claim C9: `transform_dataframe` never mutates its argument.  Running
the body over an explicit heap in which the caller's frame is slot 0 and
the `df.copy()` storage is slot 1, the caller's slot is untouched, and the
returned frame is exactly `transform_dataframe df`. -/
theorem C9_transform_no_mutation (df : DataFrame) :
    (transform_dataframe_heap df).1.getD 0 default = df ∧
    (transform_dataframe_heap df).2 = transform_dataframe df := by
  unfold transform_dataframe_heap transform_dataframe
  by_cases hg : (pandasEmpty df ||
      !(REQUIRED_COLUMNS.all (fun c => decide (c ∈ df.cols)))) = true
  · rw [if_pos hg, if_pos hg]
    exact ⟨rfl, rfl⟩
  · rw [if_neg hg, if_neg hg]
    refine ⟨?_, ?_⟩
    · rw [foldl_writeSlot_pair]
      rfl
    · rw [foldl_writeSlot_pair, List.getD_cons_succ, List.getD_cons_zero]

/-! ### Empty/missing-column guard (claim C10) -/

/-- Claim C10: on an empty frame, or one missing any of the seven required
columns, `transform_dataframe` returns the empty frame whose columns are
exactly the required seven, rather than raising. -/
theorem C10_empty_or_missing_guard (df : DataFrame)
    (h : pandasEmpty df = true ∨ ∃ c ∈ REQUIRED_COLUMNS, c ∉ df.cols) :
    transform_dataframe df = ⟨REQUIRED_COLUMNS, []⟩ := by
  unfold transform_dataframe
  rw [if_pos]
  rcases h with h | ⟨c, hc, hnc⟩
  · simp [h]
  · simp only [Bool.or_eq_true, Bool.not_eq_true']
    right
    have : ¬ (REQUIRED_COLUMNS.all (fun c => decide (c ∈ df.cols)) = true) := by
      rw [List.all_eq_true]
      intro hall
      exact hnc (of_decide_eq_true (hall c hc))
    exact Bool.eq_false_iff.mpr (fun hh => this hh)

/-- Witness for C10 at a concrete frame that is non-empty but lacks most
required columns. -/
theorem C10_witness :
    (pandasEmpty ⟨["Title"], [[Value.null]]⟩ = true ∨
      ∃ c ∈ REQUIRED_COLUMNS, c ∉ (DataFrame.mk ["Title"] [[Value.null]]).cols) ∧
    transform_dataframe ⟨["Title"], [[Value.null]]⟩ = ⟨REQUIRED_COLUMNS, []⟩ := by
  have h : pandasEmpty ⟨["Title"], [[Value.null]]⟩ = true ∨
      ∃ c ∈ REQUIRED_COLUMNS, c ∉ (DataFrame.mk ["Title"] [[Value.null]]).cols :=
    Or.inr ⟨"Price", by decide, by decide⟩
  exact ⟨h, C10_empty_or_missing_guard _ h⟩

/-! ### Rating normalisation (claim C7) -/

attribute [local semireducible] Rat.add Rat.mul Rat.inv Rat.sub Rat.ofScientific in
/-- Claim C7: `transform_rating` agrees with the specification's rule on
every rating text — `null` on absent text or an `Invalid`/`Not Rated`
marker, otherwise the float parsed from the trimmed substring before `/`
with `null` on parse failure — and on the two quoted examples. -/
theorem C7_rating_matches_spec :
    (∀ t : Option String, transform_rating (ov t) = rating_spec t) ∧
    transform_rating (.str ("4.5/5 ⭐")) = some (4.5 : ℚ) ∧
    transform_rating (.str ("Invalid Rating")) = none := by
  refine ⟨?_, ?_, ?_⟩
  · intro t
    cases t with
    | none => rfl
    | some s =>
      show transform_rating (.str s) = _
      unfold transform_rating transform_rating_exc transform_rating_body rating_spec
      cases hm : (containsS (pyStrOf (.str s)) "Invalid" || containsS (pyStrOf (.str s)) "Not Rated")
      · cases h : pyFloat (trimS (beforeSlash s)) <;>
          simp [pyStrOf] at hm <;> simp [hm, h, exceptCatch, exceptRun]
      · simp [pyStrOf] at hm
        simp [hm, exceptCatch, exceptRun]
  · decide
  · decide

/-! ### All-pages-fail harvest and pipeline failure (claim C5) -/

theorem flatten_of_all_nil {α : Type} {l : List (List α)}
    (h : ∀ x ∈ l, x = []) : l.flatten = [] := by
  induction l with
  | nil => rfl
  | cons a tl ih =>
    rw [List.flatten_cons, h a (List.mem_cons_self a tl),
      ih (fun x hx => h x (List.mem_cons_of_mem a hx))]
    rfl

/-- Claim C5: if every page fetch fails, every chunk result is empty, so
the harvest — whatever completion order the futures finish in — returns
the empty collection, and the pipeline reports failure without invoking
any load operation. -/
theorem C5_all_fail_no_load (fetch : ℕ → Option (List RawRecord)) (n w : ℕ)
    (order : List (List RawRecord)) (loads : Bool × Bool × Bool)
    (hf : ∀ p, fetch p = none) (hperm : order.Perm (chunkResults fetch n w)) :
    order.flatten = [] ∧
    run_etl_pipeline (rawToDF order.flatten) loads = (false, 0) := by
  have hall : ∀ x ∈ chunkResults fetch n w, x = [] := by
    intro x hx
    obtain ⟨pages, _, rfl⟩ := List.mem_map.mp hx
    unfold scrape_chunk
    apply flatten_of_all_nil
    intro y hy
    obtain ⟨p, _, rfl⟩ := List.mem_map.mp hy
    rw [hf p]
    rfl
  have hflat : order.flatten = [] :=
    flatten_of_all_nil (fun x hx => hall x (hperm.mem_iff.mp hx))
  exact ⟨hflat, by rw [hflat]; rfl⟩

/-! ### Row-level characterisation of the cleaning pipeline (claims C1, C2) -/

theorem applyColumn_eq (cols : List String) (rows : List (List Value))
    (c : String) (i : ℕ) (f : Value → Value)
    (hc : colIndex c cols = some i) :
    applyColumn ⟨cols, rows⟩ c f =
      ⟨cols, rows.map (fun r => r.set i (f (r.getD i .null)))⟩ := by
  simp only [applyColumn, hc]

theorem dropnaSub_mk (cols : List String) (rows : List (List Value))
    (cs : List String) :
    dropnaSub ⟨cols, rows⟩ cs =
      ⟨cols, rows.filter (fun r => cs.all (fun c => decide (cellAt cols r c ≠ .null)))⟩ := rfl

theorem filterUnknown_mk (cols : List String) (rows : List (List Value)) :
    filterUnknown ⟨cols, rows⟩ =
      ⟨cols, rows.filter
        (fun r => decide (cellAt cols r "Title" ≠ .str ("Unknown Product")))⟩ := rfl

theorem transform_dataframe_std (rows : List (List Value)) (hne : rows ≠ []) :
    transform_dataframe ⟨REQUIRED_COLUMNS, rows⟩ =
      ⟨REQUIRED_COLUMNS,
        (dedupFirst (((rows.map rowStep).filter dropnaPred).filter
          unknownPred)).map castRow⟩ := by
  obtain ⟨x, xs, rfl⟩ := List.exists_cons_of_ne_nil hne
  have hall : (REQUIRED_COLUMNS.all
      (fun c => decide (c ∈ (DataFrame.mk REQUIRED_COLUMNS (x :: xs)).cols))) = true := by
    show (REQUIRED_COLUMNS.all (fun c => decide (c ∈ REQUIRED_COLUMNS))) = true
    decide
  unfold transform_dataframe
  rw [if_neg (by rw [hall]; simp [pandasEmpty, REQUIRED_COLUMNS])]
  simp only [PIPELINE_STMTS, List.foldl_cons, List.foldl_nil]
  rw [applyColumn_eq REQUIRED_COLUMNS (x :: xs) "Price" 1 _ (by decide)]
  rw [applyColumn_eq REQUIRED_COLUMNS _ "Rating" 2 _ (by decide)]
  rw [applyColumn_eq REQUIRED_COLUMNS _ "Colors" 3 _ (by decide)]
  rw [applyColumn_eq REQUIRED_COLUMNS _ "Size" 4 _ (by decide)]
  rw [applyColumn_eq REQUIRED_COLUMNS _ "Gender" 5 _ (by decide)]
  rw [applyColumn_eq REQUIRED_COLUMNS _ "timestamp" 6 _ (by decide)]
  simp only [List.map_map]
  simp only [dropnaSub_mk, filterUnknown_mk]
  simp only [astypeDF, ASTYPE_MAP, List.foldl_cons, List.foldl_nil]
  rw [applyColumn_eq REQUIRED_COLUMNS _ "Title" 0 _ (by decide)]
  rw [applyColumn_eq REQUIRED_COLUMNS _ "Price" 1 _ (by decide)]
  rw [applyColumn_eq REQUIRED_COLUMNS _ "Rating" 2 _ (by decide)]
  rw [applyColumn_eq REQUIRED_COLUMNS _ "Colors" 3 _ (by decide)]
  rw [applyColumn_eq REQUIRED_COLUMNS _ "Size" 4 _ (by decide)]
  rw [applyColumn_eq REQUIRED_COLUMNS _ "Gender" 5 _ (by decide)]
  rw [applyColumn_eq REQUIRED_COLUMNS _ "timestamp" 6 _ (by decide)]
  simp only [List.map_map]
  rfl

theorem transform_dataframe_of_empty_rows (df : DataFrame) (h : df.rows = []) :
    transform_dataframe df = ⟨REQUIRED_COLUMNS, []⟩ := by
  have hc : (pandasEmpty df ||
      !(REQUIRED_COLUMNS.all (fun c => decide (c ∈ df.cols)))) = true := by
    unfold pandasEmpty
    rw [h]
    rfl
  unfold transform_dataframe
  rw [if_pos hc]

theorem transform_rawToDF_cols (recs : List RawRecord) :
    (transform_dataframe (rawToDF recs)).cols = REQUIRED_COLUMNS := by
  cases recs with
  | nil => rfl
  | cons a as =>
    rw [show rawToDF (a :: as) = ⟨REQUIRED_COLUMNS, (a :: as).map recordToRow⟩ from rfl,
      transform_dataframe_std _ (by simp)]

theorem mem_dedupSeen (seen : List (List Value)) (l : List (List Value)) :
    ∀ x ∈ dedupSeen seen l, x ∈ l := by
  induction l generalizing seen with
  | nil =>
    intro x hx
    exact absurd hx (by simp [dedupSeen])
  | cons r rs ih =>
    intro x hx
    unfold dedupSeen at hx
    by_cases hr : r ∈ seen
    · rw [if_pos hr] at hx
      exact List.mem_cons_of_mem _ (ih seen x hx)
    · rw [if_neg hr] at hx
      rcases List.mem_cons.mp hx with rfl | hx2
      · exact List.mem_cons_self _ _
      · exact List.mem_cons_of_mem _ (ih (r :: seen) x hx2)

theorem filter_eq_nil_of_all_false {p : List Value → Bool} {l : List (List Value)}
    (h : ∀ x ∈ l, p x = false) : l.filter p = [] := by
  induction l with
  | nil => rfl
  | cons a tl ih =>
    rw [List.filter_cons, if_neg (by rw [h a (List.mem_cons_self a tl)]; exact Bool.false_ne_true)]
    exact ih (fun x hx => h x (List.mem_cons_of_mem a hx))

theorem optNum_ne_null {o : Option ℚ} (h : optNum o ≠ .null) :
    ∃ q, o = some q ∧ optNum o = .num q := by
  cases o
  · exact absurd rfl h
  · exact ⟨_, rfl, rfl⟩

theorem optInt_ne_null {o : Option ℤ} (h : optInt o ≠ .null) :
    ∃ z, o = some z ∧ optInt o = .intv z := by
  cases o
  · exact absurd rfl h
  · exact ⟨_, rfl, rfl⟩

theorem optStr_ne_null {o : Option String} (h : optStr o ≠ .null) :
    ∃ s, o = some s ∧ optStr o = .str s := by
  cases o
  · exact absurd rfl h
  · exact ⟨_, rfl, rfl⟩

theorem ov_ne_null {o : Option String} (h : ov o ≠ .null) :
    ∃ s, o = some s ∧ ov o = .str s := by
  cases o
  · exact absurd rfl h
  · exact ⟨_, rfl, rfl⟩

theorem cellAt7_Title (v0 v1 v2 v3 v4 v5 v6 : Value) :
    cellAt REQUIRED_COLUMNS [v0, v1, v2, v3, v4, v5, v6] "Title" = v0 := rfl

theorem cellAt7_Price (v0 v1 v2 v3 v4 v5 v6 : Value) :
    cellAt REQUIRED_COLUMNS [v0, v1, v2, v3, v4, v5, v6] "Price" = v1 := rfl

theorem cellAt7_Rating (v0 v1 v2 v3 v4 v5 v6 : Value) :
    cellAt REQUIRED_COLUMNS [v0, v1, v2, v3, v4, v5, v6] "Rating" = v2 := rfl

theorem cellAt7_Colors (v0 v1 v2 v3 v4 v5 v6 : Value) :
    cellAt REQUIRED_COLUMNS [v0, v1, v2, v3, v4, v5, v6] "Colors" = v3 := rfl

theorem cellAt7_Size (v0 v1 v2 v3 v4 v5 v6 : Value) :
    cellAt REQUIRED_COLUMNS [v0, v1, v2, v3, v4, v5, v6] "Size" = v4 := rfl

theorem cellAt7_Gender (v0 v1 v2 v3 v4 v5 v6 : Value) :
    cellAt REQUIRED_COLUMNS [v0, v1, v2, v3, v4, v5, v6] "Gender" = v5 := rfl

theorem castValue_object (v : Value) : castValue "object" v = v := by
  unfold castValue
  rw [if_neg (by decide), if_neg (by decide)]

theorem castValue_string (v : Value) : castValue "string" v = v := by
  unfold castValue
  rw [if_neg (by decide), if_neg (by decide)]

theorem castValue_float64_num (q : ℚ) : castValue "float64" (.num q) = .num q := by
  unfold castValue
  rw [if_pos (by decide)]

theorem castValue_int32_intv (n : ℤ) :
    castValue "int32" (.intv n) = .intv (wrap32 n) := by
  unfold castValue
  rw [if_neg (by decide), if_pos (by decide)]

theorem castRow_typed (t : String) (p ra : ℚ) (co : ℤ) (si ge : String)
    (tsv : Value) :
    castRow [.str t, .num p, .num ra, .intv co, .str si, .str ge, tsv] =
      [.str t, .num p, .num ra, .intv (wrap32 co), .str si, .str ge,
       castValue "string" tsv] := by
  show [castValue "object" (.str t), castValue "float64" (.num p),
      castValue "float64" (.num ra), castValue "int32" (.intv co),
      castValue "object" (.str si), castValue "object" (.str ge),
      castValue "string" tsv] = _
  rw [castValue_object, castValue_object, castValue_object,
    castValue_float64_num, castValue_float64_num, castValue_int32_intv]

theorem survivor_shape (recs : List RawRecord) (r : List Value)
    (hr : r ∈ (transform_dataframe (rawToDF recs)).rows) :
    ∃ t p ra co si ge tsv,
      r = [.str t, .num p, .num ra, .intv co, .str si, .str ge, tsv] ∧
      t ≠ "Unknown Product" ∧ si ∈ VALID_SIZES ∧ ge ∈ VALID_GENDERS := by
  cases recs with
  | nil =>
    rw [show transform_dataframe (rawToDF []) = ⟨REQUIRED_COLUMNS, []⟩ from rfl] at hr
    exact absurd hr (List.not_mem_nil r)
  | cons a as =>
    rw [show rawToDF (a :: as) = ⟨REQUIRED_COLUMNS, (a :: as).map recordToRow⟩ from rfl,
      transform_dataframe_std _ (by simp)] at hr
    obtain ⟨r1, hr1, rfl⟩ := List.mem_map.mp hr
    have hr2 := mem_dedupSeen _ _ _ hr1
    obtain ⟨hr3, hunk⟩ := List.mem_filter.mp hr2
    obtain ⟨hr4, hdrop⟩ := List.mem_filter.mp hr3
    rw [List.map_map] at hr4
    obtain ⟨rec, _, heq⟩ := List.mem_map.mp hr4
    have heq2 : transRow rec = r1 := by
      rw [← heq]
      rfl
    subst heq2
    simp only [transRow] at hdrop hunk
    simp only [dropnaPred, List.all_cons, List.all_nil, Bool.and_eq_true,
      decide_eq_true_eq, cellAt7_Title, cellAt7_Price, cellAt7_Rating,
      cellAt7_Colors, cellAt7_Size, cellAt7_Gender] at hdrop
    obtain ⟨ht, hp, hra, hco, hsi, hge, -⟩ := hdrop
    simp only [unknownPred, decide_eq_true_eq, cellAt7_Title] at hunk
    obtain ⟨t, hto, htv⟩ := ov_ne_null ht
    obtain ⟨p, hpo, hpv⟩ := optNum_ne_null hp
    obtain ⟨ra, hrao, hrav⟩ := optNum_ne_null hra
    obtain ⟨co, hcoo, hcov⟩ := optInt_ne_null hco
    obtain ⟨si, hsio, hsiv⟩ := optStr_ne_null hsi
    obtain ⟨ge, hgeo, hgev⟩ := optStr_ne_null hge
    rw [htv] at hunk
    have htne : t ≠ "Unknown Product" := by
      intro hcontra
      exact hunk (by rw [hcontra])
    refine ⟨t, p, ra, wrap32 co, si, ge,
      castValue "string" (optStr (transform_timestamp (ov rec.timestamp))), ?_,
      htne, transform_size_mem hsio, transform_gender_mem hgeo⟩
    simp only [transRow, htv, hpv, hrav, hcov, hsiv, hgev]
    rw [castRow_typed]

/-- Claim C1 (amended): every record in the cleaned table has its six
value fields present and typed (title a string, price and rating floats,
colour count an integer), the size and gender within their enums, and the
title different from the `Unknown Product` sentinel.  (The claimed bounds
— non-empty title, price > 0, rating ≤ 5, colors > 0 — are not enforced
by the code; see the counterexample.) -/
theorem C1_output_domain_amended (recs : List RawRecord) :
    ((transform_dataframe (rawToDF recs)).rows.all cleanRowCheck) = true := by
  rw [List.all_eq_true]
  intro r hr
  obtain ⟨t, p, ra, co, si, ge, tsv, rfl, hti, hsi, hge⟩ :=
    survivor_shape recs r hr
  simp [cleanRowCheck, hti, hsi, hge]

attribute [local semireducible] Rat.add Rat.mul Rat.inv Rat.sub Rat.ofScientific in
/-- Counterexample to claim C1 as stated: a raw record with empty title,
price `$0.00`, rating `7/5` and `0 Colors` survives cleaning, so the
final table contains a record violating the claimed domain (non-empty
title, price > 0, rating ≤ 5, colors > 0). -/
theorem C1_counterexample :
    ((transform_dataframe (rawToDF [badRecord])).rows.all claimedRowCheck) = false := by
  decide

/-- Claim C2 (amended): `transform_dataframe` is not idempotent — applying
it to any table it produced yields a table with *no rows at all*, because
the typed `Price` (and `Rating`/`Colors`) cells of a cleaned table are no
longer strings, normalise to null on the second pass, and every row is
then dropped by the null filter.  Idempotence holds only when the first
output is already empty. -/
theorem C2_reapply_drops_all (recs : List RawRecord) :
    (transform_dataframe (transform_dataframe (rawToDF recs))).rows = [] := by
  by_cases hD : (transform_dataframe (rawToDF recs)).rows = []
  · rw [transform_dataframe_of_empty_rows _ hD]
  · rw [show transform_dataframe (rawToDF recs) =
        ⟨REQUIRED_COLUMNS, (transform_dataframe (rawToDF recs)).rows⟩ from by
      rw [← transform_rawToDF_cols recs]]
    rw [transform_dataframe_std _ hD]
    have hfil : (((transform_dataframe (rawToDF recs)).rows.map rowStep).filter
        dropnaPred) = [] := by
      apply filter_eq_nil_of_all_false
      intro x hx
      obtain ⟨r1, hr1, rfl⟩ := List.mem_map.mp hx
      obtain ⟨t, p, ra, co, si, ge, tsv, rfl, -, -, -⟩ :=
        survivor_shape recs r1 hr1
      show dropnaPred
        [.str t, optNum (transform_price (.num p)),
         optNum (transform_rating (.num ra)),
         optInt (transform_colors (.intv co)),
         optStr (transform_size (.str si)),
         optStr (transform_gender (.str ge)),
         optStr (transform_timestamp tsv)] = false
      rw [transform_price_on_num]
      simp [dropnaPred, cellAt7_Title, cellAt7_Price, cellAt7_Rating,
        cellAt7_Colors, cellAt7_Size, cellAt7_Gender, optNum]
    rw [hfil]
    rfl

attribute [local semireducible] Rat.add Rat.mul Rat.inv Rat.sub Rat.ofScientific in
/-- Counterexample to claim C2 as stated: applying `transform_dataframe`
to the one-row cleaned table it produced from a fully valid record does
not reproduce that table — it empties it. -/
theorem C2_counterexample :
    transform_dataframe (transform_dataframe (rawToDF [goodRecord])) ≠
      transform_dataframe (rawToDF [goodRecord]) := by
  decide

/-! ### Dollar-amount price conversion (claim C6) -/

theorem ne_of_isDigit {c : Char} (h : c.isDigit = true) (d : Char)
    (hd : d.isDigit = false) : c ≠ d := by
  intro hc
  rw [hc, hd] at h
  exact Bool.false_ne_true h

theorem bne_of_isDigit {c : Char} (h : c.isDigit = true) (d : Char)
    (hd : d.isDigit = false) : (c != d) = true :=
  bne_iff_ne.mpr (ne_of_isDigit h d hd)

theorem beq_false_of_isDigit {c : Char} (h : c.isDigit = true) (d : Char)
    (hd : d.isDigit = false) : (c == d) = false :=
  beq_eq_false_iff_ne.mpr (ne_of_isDigit h d hd)

theorem isWs_eq_false_of_isDigit {c : Char} (h : c.isDigit = true) :
    isWs c = false := by
  cases hws : isWs c
  · rfl
  · exfalso
    unfold isWs at hws
    simp only [Bool.or_eq_true, decide_eq_true_eq] at hws
    rcases hws with ((((rfl | rfl) | rfl) | rfl) | rfl) | rfl <;>
      exact absurd h (by decide)

theorem notExp_of_isDigit {c : Char} (h : c.isDigit = true) :
    ((c == 'e' || c == 'E')) = false := by
  rw [beq_false_of_isDigit h 'e' (by decide), beq_false_of_isDigit h 'E' (by decide)]
  rfl

theorem dropWhile_of_all_false (p : Char → Bool) (l : List Char)
    (h : ∀ c ∈ l, p c = false) : l.dropWhile p = l := by
  cases l with
  | nil => rfl
  | cons c cs =>
    rw [List.dropWhile_cons, h c (List.mem_cons_self c cs)]
    simp

theorem pyTrim_of_no_ws (l : List Char) (h : ∀ c ∈ l, isWs c = false) :
    pyTrim l = l := by
  unfold pyTrim
  rw [dropWhile_of_all_false _ _ h,
    dropWhile_of_all_false _ _ (fun c hc => h c (List.mem_reverse.mp hc)),
    List.reverse_reverse]

theorem splitOnP_of_all_false (p : Char → Bool) (l : List Char)
    (h : ∀ c ∈ l, p c = false) : splitOnP p l = [l] := by
  induction l with
  | nil => rfl
  | cons c cs ih =>
    have hpc : p c = false := h c (List.mem_cons_self c cs)
    show (if p c then [] :: splitOnP p cs
          else (c :: (splitOnP p cs).headD []) :: (splitOnP p cs).tail) = [c :: cs]
    rw [hpc, if_neg Bool.false_ne_true,
      ih (fun d hd => h d (List.mem_cons_of_mem c hd))]
    rfl

theorem splitOnP_append_sep (p : Char → Bool) (a : List Char) (s : Char)
    (b : List Char) (ha : ∀ c ∈ a, p c = false) (hs : p s = true) :
    splitOnP p (a ++ s :: b) = a :: splitOnP p b := by
  induction a with
  | nil =>
    show (if p s then [] :: splitOnP p b
          else (s :: (splitOnP p b).headD []) :: (splitOnP p b).tail) = [] :: splitOnP p b
    rw [hs, if_pos rfl]
  | cons c cs ih =>
    have hpc : p c = false := ha c (List.mem_cons_self c cs)
    show (if p c then [] :: splitOnP p (cs ++ s :: b)
          else (c :: (splitOnP p (cs ++ s :: b)).headD []) ::
            (splitOnP p (cs ++ s :: b)).tail) = (c :: cs) :: splitOnP p b
    rw [hpc, if_neg Bool.false_ne_true,
      ih (fun d hd => ha d (List.mem_cons_of_mem c hd))]
    rfl

theorem stripSign_digit (c : Char) (cs : List Char) (h : c.isDigit = true) :
    stripSign (c :: cs) = (1, c :: cs) := by
  show (if c = '+' then ((1 : ℚ), cs)
        else if c = '-' then (-1, cs) else (1, c :: cs)) = (1, c :: cs)
  rw [if_neg (ne_of_isDigit h '+' (by decide)),
    if_neg (ne_of_isDigit h '-' (by decide))]

theorem parseMantissa_digits (ip : List Char) (hip : allDigits ip = true)
    (hne : ip ≠ []) : parseMantissa ip = some ((digitsVal ip : ℚ)) := by
  have hip2 : ∀ c ∈ ip, c.isDigit = true := by
    rw [allDigits, List.all_eq_true] at hip
    exact hip
  unfold parseMantissa
  rw [show splitChar '.' ip = [ip] from
    splitOnP_of_all_false _ _
      (fun d hd => beq_false_of_isDigit (hip2 d hd) '.' (by decide))]
  show (if allDigits ip ∧ ip ≠ [] then some ((digitsVal ip : ℚ)) else none) = _
  rw [if_pos ⟨hip, hne⟩]

theorem parseMantissa_digits_dot (ip f : List Char) (hip : allDigits ip = true)
    (hne : ip ≠ []) (hf : allDigits f = true) :
    parseMantissa (ip ++ '.' :: f) =
      some ((digitsVal ip : ℚ) + (digitsVal f : ℚ) / 10 ^ f.length) := by
  have hip2 : ∀ c ∈ ip, c.isDigit = true := by
    rw [allDigits, List.all_eq_true] at hip
    exact hip
  have hf2 : ∀ c ∈ f, c.isDigit = true := by
    rw [allDigits, List.all_eq_true] at hf
    exact hf
  unfold parseMantissa
  rw [show splitChar '.' (ip ++ '.' :: f) =
      splitOnP (fun x => x == '.') (ip ++ '.' :: f) from rfl]
  rw [splitOnP_append_sep _ _ _ _
    (fun d hd => beq_false_of_isDigit (hip2 d hd) '.' (by decide)) (by rfl)]
  rw [splitOnP_of_all_false _ _
    (fun d hd => beq_false_of_isDigit (hf2 d hd) '.' (by decide))]
  show (if allDigits ip ∧ allDigits f ∧ (ip ≠ [] ∨ f ≠ []) then
      some ((digitsVal ip : ℚ) + (digitsVal f : ℚ) / 10 ^ f.length)
    else none) = _
  rw [if_pos ⟨hip, hf, Or.inl hne⟩]

theorem pyFloatCore_digits (ip : List Char) (hip : allDigits ip = true)
    (hne : ip ≠ []) : pyFloatCore ip = some ((digitsVal ip : ℚ)) := by
  have hip2 : ∀ c ∈ ip, c.isDigit = true := by
    rw [allDigits, List.all_eq_true] at hip
    exact hip
  obtain ⟨c, cs, rfl⟩ := List.exists_cons_of_ne_nil hne
  unfold pyFloatCore
  simp only [stripSign_digit c cs (hip2 c (List.mem_cons_self c cs))]
  rw [splitOnP_of_all_false _ _ (fun d hd => notExp_of_isDigit (hip2 d hd))]
  show Option.map (fun q => (1 : ℚ) * q) (parseMantissa (c :: cs)) = _
  rw [parseMantissa_digits _ hip (by simp)]
  simp

theorem pyFloatCore_digits_dot (ip f : List Char) (hip : allDigits ip = true)
    (hne : ip ≠ []) (hf : allDigits f = true) :
    pyFloatCore (ip ++ '.' :: f) =
      some ((digitsVal ip : ℚ) + (digitsVal f : ℚ) / 10 ^ f.length) := by
  have hip2 : ∀ c ∈ ip, c.isDigit = true := by
    rw [allDigits, List.all_eq_true] at hip
    exact hip
  have hf2 : ∀ c ∈ f, c.isDigit = true := by
    rw [allDigits, List.all_eq_true] at hf
    exact hf
  obtain ⟨c, cs, rfl⟩ := List.exists_cons_of_ne_nil hne
  have hnotexp : ∀ d ∈ c :: (cs ++ '.' :: f), ((d == 'e' || d == 'E')) = false := by
    intro d hd
    rcases List.mem_cons.mp hd with rfl | hd2
    · exact notExp_of_isDigit (hip2 d (List.mem_cons_self d cs))
    · rcases List.mem_append.mp hd2 with hd3 | hd4
      · exact notExp_of_isDigit (hip2 d (List.mem_cons_of_mem c hd3))
      · rcases List.mem_cons.mp hd4 with rfl | hd5
        · rfl
        · exact notExp_of_isDigit (hf2 d hd5)
  unfold pyFloatCore
  rw [show ((c :: cs) ++ '.' :: f) = c :: (cs ++ '.' :: f) from rfl]
  simp only [stripSign_digit c _ (hip2 c (List.mem_cons_self c cs))]
  rw [splitOnP_of_all_false _ _ hnotexp]
  show Option.map (fun q => (1 : ℚ) * q) (parseMantissa (c :: (cs ++ '.' :: f))) = _
  rw [show (c :: (cs ++ '.' :: f)) = ((c :: cs) ++ '.' :: f) from rfl]
  rw [parseMantissa_digits_dot _ _ hip (by simp) hf]
  simp

theorem filter_commas (gs : List (List Char))
    (h : ∀ g ∈ gs, ∀ d ∈ g, d.isDigit = true) :
    ((gs.map (fun g => ',' :: g)).flatten).filter (fun d => d != ',') =
      gs.flatten := by
  induction gs with
  | nil => rfl
  | cons g rest ih =>
    show ((',' :: g) ++ (rest.map (fun g => ',' :: g)).flatten).filter
        (fun d => d != ',') = g ++ rest.flatten
    rw [List.filter_append, List.filter_cons, if_neg (by decide)]
    rw [List.filter_eq_self.mpr
      (fun d hd => bne_of_isDigit (h g (List.mem_cons_self g rest) d hd) ',' (by decide))]
    rw [ih (fun g' hg' d hd => h g' (List.mem_cons_of_mem g hg') d hd)]

theorem cleaned_render (dollar : Bool) (g0 : List Char) (gs : List (List Char))
    (fracChars : List Char)
    (hg0 : ∀ c ∈ g0, c.isDigit = true)
    (hgs : ∀ g ∈ gs, ∀ c ∈ g, c.isDigit = true)
    (hfc : ∀ c ∈ fracChars, (c != '$') = true ∧ (c != ',') = true) :
    removeChar ','
      (removeChar '$'
        ((if dollar then ['$'] else []) ++ g0 ++
          (gs.map (fun g => ',' :: g)).flatten ++ fracChars)) =
      g0 ++ gs.flatten ++ fracChars := by
  have hcommas : ∀ d ∈ (gs.map (fun g => ',' :: g)).flatten, (d != '$') = true := by
    intro d hd
    rw [List.mem_flatten] at hd
    obtain ⟨l, hl, hdl⟩ := hd
    obtain ⟨g, hg, rfl⟩ := List.mem_map.mp hl
    rcases List.mem_cons.mp hdl with rfl | hdg
    · decide
    · exact bne_of_isDigit (hgs g hg d hdg) '$' (by decide)
  have h1 : removeChar '$'
      ((if dollar then ['$'] else []) ++ g0 ++
        (gs.map (fun g => ',' :: g)).flatten ++ fracChars) =
      g0 ++ (gs.map (fun g => ',' :: g)).flatten ++ fracChars := by
    unfold removeChar
    simp only [List.filter_append]
    rw [show (if dollar then ['$'] else ([] : List Char)).filter
        (fun d => d != '$') = [] from by cases dollar <;> rfl]
    rw [List.filter_eq_self.mpr
      (fun d hd => bne_of_isDigit (hg0 d hd) '$' (by decide))]
    rw [List.filter_eq_self.mpr hcommas,
      List.filter_eq_self.mpr (fun d hd => (hfc d hd).1)]
    rfl
  rw [h1]
  unfold removeChar
  simp only [List.filter_append]
  rw [List.filter_eq_self.mpr
    (fun d hd => bne_of_isDigit (hg0 d hd) ',' (by decide))]
  rw [filter_commas gs hgs,
    List.filter_eq_self.mpr (fun d hd => (hfc d hd).2)]

theorem renderDollar_none (dollar : Bool) (g0 : List Char)
    (gs : List (List Char)) :
    renderDollar dollar g0 gs none =
      (if dollar then ['$'] else []) ++ g0 ++
        (gs.map (fun g => ',' :: g)).flatten ++ [] := rfl

theorem renderDollar_some (dollar : Bool) (g0 : List Char)
    (gs : List (List Char)) (f : List Char) :
    renderDollar dollar g0 gs (some f) =
      (if dollar then ['$'] else []) ++ g0 ++
        (gs.map (fun g => ',' :: g)).flatten ++ ('.' :: f) := rfl

theorem dollarNum_none (g0 : List Char) (gs : List (List Char)) :
    dollarNum g0 gs none = (digitsVal (g0 ++ gs.flatten) : ℚ) := by
  unfold dollarNum
  exact add_zero _

theorem dollarNum_some (g0 : List Char) (gs : List (List Char))
    (f : List Char) :
    dollarNum g0 gs (some f) =
      (digitsVal (g0 ++ gs.flatten) : ℚ) + (digitsVal f : ℚ) / 10 ^ f.length := rfl

attribute [local semireducible] Rat.add Rat.mul Rat.inv Rat.sub Rat.ofScientific in
/-- Claim C6: on every well-formed dollar amount — optional `$` sign, a
digit group followed by comma-separated three-digit groups, an optional
decimal fraction — `transform_price` strips the `$` and the thousands
separators, parses the float, and multiplies by the exchange rate; on
every input whose stripped text is not a numeric literal it returns null;
and `$12.50` converts to `200000.0` at the fixed rate `16000.0`. -/
theorem C6_price_dollar_amounts :
    (∀ (s : String) (dollar : Bool) (g0 : List Char) (gs : List (List Char))
        (frac : Option (List Char)),
      s.data = renderDollar dollar g0 gs frac →
      allDigits g0 = true → g0 ≠ [] →
      (gs.all (fun g => allDigits g && decide (g.length = 3))) = true →
      allDigits (frac.getD []) = true →
      transform_price (.str s) = some (dollarNum g0 gs frac * EXCHANGE_RATE)) ∧
    (∀ s : String,
      pyFloat (trimS (removeCharS ',' (removeCharS '$' s))) = none →
      transform_price (.str s) = none) ∧
    transform_price (.str ("$12.50")) = some ((200000 : ℚ)) := by
  refine ⟨?_, ?_, ?_⟩
  · intro s dollar g0 gs frac hs hg0d hg0ne hgsd hfracd
    have hg0 : ∀ c ∈ g0, c.isDigit = true := by
      rw [allDigits, List.all_eq_true] at hg0d
      exact hg0d
    have hgs : ∀ g ∈ gs, ∀ c ∈ g, c.isDigit = true := by
      rw [List.all_eq_true] at hgsd
      intro g hg c hc
      have hconj := hgsd g hg
      rw [Bool.and_eq_true] at hconj
      have h2 := hconj.1
      rw [allDigits, List.all_eq_true] at h2
      exact h2 c hc
    have hflat : ∀ c ∈ g0 ++ gs.flatten, c.isDigit = true := by
      intro c hc
      rcases List.mem_append.mp hc with h | h
      · exact hg0 c h
      · rw [List.mem_flatten] at h
        obtain ⟨g, hg, hcg⟩ := h
        exact hgs g hg c hcg
    have hipne : g0 ++ gs.flatten ≠ [] := by
      obtain ⟨c, cs, rfl⟩ := List.exists_cons_of_ne_nil hg0ne
      simp
    have hipd : allDigits (g0 ++ gs.flatten) = true := by
      rw [allDigits, List.all_eq_true]
      exact hflat
    rw [transform_price_str]
    rcases frac with _ | f
    · have hdata : trimS (removeCharS ',' (removeCharS '$' s)) =
          ⟨g0 ++ gs.flatten⟩ := by
        show (⟨pyTrim (removeChar ',' (removeChar '$' s.data))⟩ : String) = _
        rw [hs, renderDollar_none,
          cleaned_render dollar g0 gs [] hg0 hgs
            (fun c hc => absurd hc (List.not_mem_nil c)),
          List.append_nil,
          pyTrim_of_no_ws _ (fun c hc => isWs_eq_false_of_isDigit (hflat c hc))]
      have hfloat : pyFloat (trimS (removeCharS ',' (removeCharS '$' s))) =
          some (dollarNum g0 gs none) := by
        rw [hdata]
        show pyFloatCore (pyTrim (g0 ++ gs.flatten)) = _
        rw [pyTrim_of_no_ws _ (fun c hc => isWs_eq_false_of_isDigit (hflat c hc)),
          pyFloatCore_digits _ hipd hipne, dollarNum_none]
      rw [hfloat]
      rfl
    · have hf2 : ∀ c ∈ f, c.isDigit = true := by
        rw [show (some f).getD [] = f from rfl] at hfracd
        rw [allDigits, List.all_eq_true] at hfracd
        exact hfracd
      have hnws : ∀ c ∈ g0 ++ gs.flatten ++ '.' :: f, isWs c = false := by
        intro c hc
        rcases List.mem_append.mp hc with h | h
        · exact isWs_eq_false_of_isDigit (hflat c h)
        · rcases List.mem_cons.mp h with rfl | hcf
          · decide
          · exact isWs_eq_false_of_isDigit (hf2 c hcf)
      have hdata : trimS (removeCharS ',' (removeCharS '$' s)) =
          ⟨g0 ++ gs.flatten ++ '.' :: f⟩ := by
        show (⟨pyTrim (removeChar ',' (removeChar '$' s.data))⟩ : String) = _
        rw [hs, renderDollar_some,
          cleaned_render dollar g0 gs ('.' :: f) hg0 hgs ?hfc]
        case hfc =>
          intro c hc
          rcases List.mem_cons.mp hc with rfl | hcf
          · exact ⟨by decide, by decide⟩
          · have hcd := hf2 c hcf
            exact ⟨bne_of_isDigit hcd '$' (by decide),
              bne_of_isDigit hcd ',' (by decide)⟩
        rw [pyTrim_of_no_ws _ hnws]
      have hfloat : pyFloat (trimS (removeCharS ',' (removeCharS '$' s))) =
          some (dollarNum g0 gs (some f)) := by
        rw [hdata]
        show pyFloatCore (pyTrim (g0 ++ gs.flatten ++ '.' :: f)) = _
        rw [pyTrim_of_no_ws _ hnws,
          pyFloatCore_digits_dot _ _ hipd hipne
            (by rw [allDigits, List.all_eq_true]; exact hf2),
          dollarNum_some]
      rw [hfloat]
      rfl
  · intro s h
    rw [transform_price_str, h]
    rfl
  · decide

/-- Witness for C6 at the specification's concrete example `$12.50`
(dollar sign present, digit group `12`, no thousands groups, fraction
`50`). -/
theorem C6_witness :
    (("$12.50" : String).data = renderDollar true ['1', '2'] [] (some ['5', '0'])) ∧
    transform_price (.str ("$12.50")) =
      some (dollarNum ['1', '2'] [] (some ['5', '0']) * EXCHANGE_RATE) :=
  ⟨by decide,
   C6_price_dollar_amounts.1 ("$12.50") true ['1', '2'] [] (some ['5', '0'])
     (by decide) (by decide) (by decide) (by decide) (by decide)⟩

/-! ### Descriptor classification (claim C3) -/

theorem fieldGet_fieldSet_same (f : Fld) (acc : AdditionalInfo) (v : String) :
    fieldGet f (fieldSet f acc v) = some v := by
  cases f <;> rfl

theorem fieldGet_fieldSet_ne (f g : Fld) (acc : AdditionalInfo) (v : String)
    (h : g ≠ f) : fieldGet f (fieldSet g acc v) = fieldGet f acc := by
  cases f <;> cases g <;> first
    | rfl
    | exact absurd rfl h

theorem infoStep_classify (info : AdditionalInfo) (p : String) :
    infoStep info p =
      (match classifyP (trimS p) with
       | none => info
       | some f => fieldSet f info (procOf f (trimS p))) := by
  unfold infoStep classifyP
  cases h1 : containsS (trimS p) "Rating:" <;>
    cases h2 : containsS (trimS p) "Colors" <;>
      cases h3 : containsS (trimS p) "Size:" <;>
        cases h4 : containsS (trimS p) "Gender:" <;>
          simp [h1, h2, h3, h4, fieldSet, procOf]

theorem get_additional_info_foldl (f : Fld) (ps : List String) :
    ∀ acc, fieldGet f (ps.foldl infoStep acc) =
      (match lastMatch f ps with
       | some t => some (procOf f t)
       | none => fieldGet f acc) := by
  induction ps with
  | nil => intro acc; rfl
  | cons p tl ih =>
    intro acc
    rw [List.foldl_cons, ih, infoStep_classify]
    cases hlm : lastMatch f tl with
    | some t => simp [lastMatch, hlm]
    | none =>
      simp only [lastMatch, hlm]
      cases hc : classifyP (trimS p) with
      | none => simp
      | some g =>
        by_cases hf : g = f
        · subst hf
          simp [fieldGet_fieldSet_same]
        · simp [hf, fieldGet_fieldSet_ne f g acc _ hf]

/-- Claim C3 (amended): each trimmed descriptor paragraph is classified by
the first matching literal substring trigger in source order
(`Rating:`, `Colors`, `Size:`, `Gender:`); a `Colors`/`Size:`/`Gender:`
paragraph assigns its verbatim trimmed text and a `Rating:` paragraph
assigns its processed text (star and `Rating:` marker removed, truncated
before the first `/`, trimmed); the last matching paragraph wins,
unmatched paragraphs are ignored, and a missing trigger leaves the field
null. -/
theorem C3_descriptor_classification_amended (ps : List String) (f : Fld) :
    fieldGet f (get_additional_info ps) = (lastMatch f ps).map (procOf f) := by
  unfold get_additional_info
  rw [get_additional_info_foldl]
  cases hlm : lastMatch f ps
  · cases f <;> rfl
  · rfl

/-- Counterexample to claim C3 as stated: a `Rating:` paragraph is *not*
assigned its verbatim trimmed text — the code assigns the processed
rating value instead. -/
theorem C3_counterexample :
    (get_additional_info [("Rating: 4.5/5 ⭐")]).Rating = some ("4.5") ∧
    (get_additional_info [("Rating: 4.5/5 ⭐")]).Rating ≠
      some (trimS ("Rating: 4.5/5 ⭐")) :=
  ⟨by decide, by decide⟩

/-! ### Page chunking (claim C4) -/

theorem chunksOfFuel_nil (sz f : ℕ) : chunksOfFuel sz f [] = [] := by
  cases f <;> rfl

theorem chunksOfFuel_flatten (sz : ℕ) (hsz : 0 < sz) :
    ∀ (f : ℕ) (l : List ℕ), l.length ≤ f →
      (chunksOfFuel sz f l).flatten = l := by
  intro f
  induction f with
  | zero =>
    intro l hl
    cases l with
    | nil => rfl
    | cons a as => simp at hl
  | succ f ih =>
    intro l hl
    cases l with
    | nil => rfl
    | cons a as =>
      show ((a :: as).take sz :: chunksOfFuel sz f ((a :: as).drop sz)).flatten = a :: as
      rw [List.flatten_cons, ih _ ?_, List.take_append_drop]
      rw [List.length_drop]
      simp only [List.length_cons] at hl ⊢
      omega

theorem chunksOfFuel_length (sz : ℕ) (hsz : 0 < sz) :
    ∀ (f : ℕ) (l : List ℕ), l.length ≤ f →
      (chunksOfFuel sz f l).length = (l.length + sz - 1) / sz := by
  intro f
  induction f with
  | zero =>
    intro l hl
    cases l with
    | nil =>
      show 0 = (0 + sz - 1) / sz
      rw [Nat.zero_add, Nat.div_eq_of_lt (by omega)]
    | cons a as => simp at hl
  | succ f ih =>
    intro l hl
    cases l with
    | nil =>
      show 0 = (0 + sz - 1) / sz
      rw [Nat.zero_add, Nat.div_eq_of_lt (by omega)]
    | cons a as =>
      show (chunksOfFuel sz f ((a :: as).drop sz)).length + 1 = _
      rw [ih _ (by rw [List.length_drop]; simp only [List.length_cons] at hl ⊢; omega)]
      rw [List.length_drop]
      rcases Nat.lt_or_ge sz (a :: as).length with hlt | hge
      · have h1 : (a :: as).length - sz + sz - 1 = (a :: as).length - 1 := by omega
        have h2 : (a :: as).length + sz - 1 = ((a :: as).length - 1) + sz := by omega
        rw [h1, h2, Nat.add_div_right _ hsz]
      · have h1 : (a :: as).length - sz = 0 := by omega
        rw [h1]
        have h2 : (0 + sz - 1) / sz = 0 := by
          rw [Nat.zero_add, Nat.div_eq_of_lt (by omega)]
        rw [h2]
        have hlen : 1 ≤ (a :: as).length := by simp
        have : ((a :: as).length + sz - 1) / sz = 1 := by
          apply Nat.div_eq_of_lt_le <;> omega
        rw [this]

theorem chunksOfFuel_sizes (sz : ℕ) (hsz : 0 < sz) :
    ∀ (f : ℕ) (l : List ℕ), l.length ≤ f →
      ∀ c ∈ chunksOfFuel sz f l, c.length ≤ sz ∧ c ≠ [] := by
  intro f
  induction f with
  | zero =>
    intro l hl c hc
    cases l with
    | nil => simp [chunksOfFuel] at hc
    | cons a as => simp at hl
  | succ f ih =>
    intro l hl c hc
    cases l with
    | nil => simp [chunksOfFuel] at hc
    | cons a as =>
      rcases List.mem_cons.mp hc with rfl | hc2
      · constructor
        · rw [List.length_take]
          omega
        · obtain ⟨k, rfl⟩ := Nat.exists_eq_succ_of_ne_zero (Nat.pos_iff_ne_zero.mp hsz)
          simp [List.take_succ_cons]
      · exact ih _ (by rw [List.length_drop]; simp only [List.length_cons] at hl ⊢; omega) c hc2

theorem chunksOfFuel_dropLast (sz : ℕ) (hsz : 0 < sz) :
    ∀ (f : ℕ) (l : List ℕ), l.length ≤ f →
      ∀ c ∈ (chunksOfFuel sz f l).dropLast, c.length = sz := by
  intro f
  induction f with
  | zero =>
    intro l hl c hc
    cases l with
    | nil => simp [chunksOfFuel] at hc
    | cons a as => simp at hl
  | succ f ih =>
    intro l hl c hc
    cases l with
    | nil => simp [chunksOfFuel] at hc
    | cons a as =>
      cases hdrop : (a :: as).drop sz with
      | nil =>
        rw [show chunksOfFuel sz (f + 1) (a :: as) =
            [(a :: as).take sz] from by
          show (a :: as).take sz :: chunksOfFuel sz f ((a :: as).drop sz) = _
          rw [hdrop, chunksOfFuel_nil]] at hc
        simp at hc
      | cons b bs =>
        have hlen : sz < (a :: as).length := by
          by_contra hle
          push_neg at hle
          have : (a :: as).drop sz = [] := List.drop_eq_nil_of_le hle
          rw [this] at hdrop
          exact List.noConfusion hdrop
        have hf1 : f ≠ 0 := by
          have h1 : ((a :: as).drop sz).length ≤ f := by
            rw [List.length_drop]
            simp only [List.length_cons] at hl ⊢
            omega
          rw [hdrop] at h1
          simp only [List.length_cons] at h1
          omega
        obtain ⟨f2, rfl⟩ := Nat.exists_eq_succ_of_ne_zero hf1
        have hrest : chunksOfFuel sz (f2 + 1) ((a :: as).drop sz) =
            ((a :: as).drop sz).take sz ::
              chunksOfFuel sz f2 (((a :: as).drop sz).drop sz) := by
          rw [hdrop]
          rfl
        rw [show chunksOfFuel sz (f2 + 1 + 1) (a :: as) =
            (a :: as).take sz :: chunksOfFuel sz (f2 + 1) ((a :: as).drop sz) from rfl,
          hrest] at hc
        rw [List.dropLast_cons₂] at hc
        rcases List.mem_cons.mp hc with rfl | hc2
        · rw [List.length_take]
          omega
        · rw [← hrest] at hc2
          exact ih ((a :: as).drop sz)
            (by rw [List.length_drop]; simp only [List.length_cons] at hl ⊢; omega) c hc2

theorem CHUNK_SIZE_pos (n w : ℕ) (hn : 0 < n) (_hw : 0 < w) :
    0 < CHUNK_SIZE n w := by
  unfold CHUNK_SIZE
  have hdm : w * (n / w) + n % w = n := Nat.div_add_mod n w
  rcases Nat.eq_zero_or_pos (n % w) with h | h
  · rw [if_neg (by simp [h])]
    rcases Nat.eq_zero_or_pos (n / w) with hq | hq
    · rw [hq, h] at hdm
      simp at hdm
      omega
    · rw [Nat.add_zero]
      exact hq
  · rw [if_pos h]
    exact Nat.succ_pos _

theorem chunk_count_le (n w : ℕ) (hn : 0 < n) (hw : 0 < w) :
    (n + CHUNK_SIZE n w - 1) / CHUNK_SIZE n w ≤ w := by
  have hc : 0 < CHUNK_SIZE n w := CHUNK_SIZE_pos n w hn hw
  have hcw : n ≤ CHUNK_SIZE n w * w := by
    unfold CHUNK_SIZE
    have hdm : w * (n / w) + n % w = n := Nat.div_add_mod n w
    have hmlt : n % w < w := Nat.mod_lt _ hw
    rcases Nat.eq_zero_or_pos (n % w) with h | h
    · rw [if_neg (by simp [h]), Nat.add_zero, Nat.mul_comm]
      rw [h, Nat.add_zero] at hdm
      rw [hdm]
    · rw [if_pos h, Nat.add_mul, Nat.one_mul, Nat.mul_comm]
      calc n = w * (n / w) + n % w := hdm.symm
        _ ≤ w * (n / w) + w := Nat.add_le_add_left (Nat.le_of_lt hmlt) _
  rcases Nat.lt_or_ge w ((n + CHUNK_SIZE n w - 1) / CHUNK_SIZE n w) with hgt | hle
  · exfalso
    have h1 : (w + 1) * CHUNK_SIZE n w ≤
        ((n + CHUNK_SIZE n w - 1) / CHUNK_SIZE n w) * CHUNK_SIZE n w :=
      Nat.mul_le_mul_right _ hgt
    have h2 : ((n + CHUNK_SIZE n w - 1) / CHUNK_SIZE n w) * CHUNK_SIZE n w ≤
        n + CHUNK_SIZE n w - 1 := Nat.div_mul_le_self _ _
    have h3 : n + CHUNK_SIZE n w - 1 ≤
        CHUNK_SIZE n w * w + CHUNK_SIZE n w - 1 := by
      have := Nat.add_le_add_right hcw (CHUNK_SIZE n w)
      omega
    have h4 : (w + 1) * CHUNK_SIZE n w = CHUNK_SIZE n w * w + CHUNK_SIZE n w := by
      ring
    have hchain : CHUNK_SIZE n w * w + CHUNK_SIZE n w ≤
        CHUNK_SIZE n w * w + CHUNK_SIZE n w - 1 := by
      calc CHUNK_SIZE n w * w + CHUNK_SIZE n w
          = (w + 1) * CHUNK_SIZE n w := h4.symm
        _ ≤ ((n + CHUNK_SIZE n w - 1) / CHUNK_SIZE n w) * CHUNK_SIZE n w := h1
        _ ≤ n + CHUNK_SIZE n w - 1 := h2
        _ ≤ CHUNK_SIZE n w * w + CHUNK_SIZE n w - 1 := h3
    omega
  · exact hle

/-- Claim C4 (amended): for positive page and worker counts the harvester
splits `1..NUM_PAGES` into contiguous chunks of size
`CHUNK_SIZE = ceil(NUM_PAGES / MAX_WORKERS)` (last chunk possibly
shorter, none empty) that cover the range exhaustively in order — hence
with no gaps and no overlap.  The number of chunks is *at most*
`MAX_WORKERS`; it can be strictly smaller, so the claim's "exactly
MAX_WORKERS chunks" is corrected to this bound. -/
theorem C4_chunking_amended (n w : ℕ) (hn : 0 < n) (hw : 0 < w) :
    (chunksOf (CHUNK_SIZE n w) (pagesList n)).flatten = pagesList n ∧
    (chunksOf (CHUNK_SIZE n w) (pagesList n)).length ≤ w ∧
    ((chunksOf (CHUNK_SIZE n w) (pagesList n)).dropLast.all
      (fun c => c.length == CHUNK_SIZE n w)) = true ∧
    ((chunksOf (CHUNK_SIZE n w) (pagesList n)).all
      (fun c => decide (c.length ≤ CHUNK_SIZE n w ∧ c ≠ []))) = true := by
  have hsz : 0 < CHUNK_SIZE n w := CHUNK_SIZE_pos n w hn hw
  have hlen : (pagesList n).length = n := by simp [pagesList]
  refine ⟨?_, ?_, ?_, ?_⟩
  · exact chunksOfFuel_flatten _ hsz _ _ (Nat.le_refl _)
  · rw [chunksOf, chunksOfFuel_length _ hsz _ _ (Nat.le_refl _), hlen]
    exact chunk_count_le n w hn hw
  · rw [List.all_eq_true]
    intro c hc
    exact beq_iff_eq.mpr (chunksOfFuel_dropLast _ hsz _ _ (Nat.le_refl _) c hc)
  · rw [List.all_eq_true]
    intro c hc
    exact decide_eq_true (chunksOfFuel_sizes _ hsz _ _ (Nat.le_refl _) c hc)

/-- Counterexample to claim C4 as stated: with 6 pages and 4 workers the
chunk size is `ceil(6/4) = 2` and the range splits into 3 chunks, not
`MAX_WORKERS = 4`. -/
theorem C4_counterexample :
    chunksOf (CHUNK_SIZE 6 4) (pagesList 6) = [[1, 2], [3, 4], [5, 6]] ∧
    (chunksOf (CHUNK_SIZE 6 4) (pagesList 6)).length ≠ 4 :=
  ⟨by decide, by decide⟩

/-- Witness for C4 at the specification's concrete instance: 50 pages and
10 workers yield 10 chunks of 5 pages each covering `1..50`. -/
theorem C4_witness :
    ((chunksOf (CHUNK_SIZE 50 10) (pagesList 50)).flatten = pagesList 50 ∧
     (chunksOf (CHUNK_SIZE 50 10) (pagesList 50)).length ≤ 10 ∧
     ((chunksOf (CHUNK_SIZE 50 10) (pagesList 50)).dropLast.all
       (fun c => c.length == CHUNK_SIZE 50 10)) = true ∧
     ((chunksOf (CHUNK_SIZE 50 10) (pagesList 50)).all
       (fun c => decide (c.length ≤ CHUNK_SIZE 50 10 ∧ c ≠ []))) = true) ∧
    (chunksOf (CHUNK_SIZE 50 10) (pagesList 50)).map List.length =
      List.replicate 10 5 :=
  ⟨C4_chunking_amended 50 10 (by decide) (by decide), by decide⟩

/-- Witness for C5: the harvest of 50 pages over 10 workers with a fully
failing fetch, merged in submission order. -/
theorem C5_witness :
    (chunkResults noFetch 50 10).flatten = [] ∧
    run_etl_pipeline (rawToDF (chunkResults noFetch 50 10).flatten)
      (true, true, true) = (false, 0) :=
  C5_all_fail_no_load noFetch 50 10 (chunkResults noFetch 50 10)
    (true, true, true) (fun _ => rfl) (List.Perm.refl _)

end ETL
